import Mathlib

/-!
A verification development for `scripts/benchmark_models.py`: a shallow
embedding of its core — the percentile estimator, the trial executor
`run_single_chat`, the scheduler `run_benchmark`, and the aggregator
`aggregate` — together with theorems settling the specification's claims.

Modelling conventions:
* Python floats are idealized as `ℚ`; the float sentinel `nan` used for
  "undefined" statistics is rendered as `none : Option ℚ`.
* A raised Python exception is `Except.error msg`; a computation that cannot
  raise has a plain type.
* JSON values are the inductive `PyJson`; the standard-library functions
  `json.loads` / `json.dumps` are supplied by the environment as oracles
  (`jparse`, `jdumps`), since they are library code outside the repository.
* The monotonic clock `time.perf_counter` is an environment function
  `clock : ℕ → ℚ` read at successive call indices (`t0` is `clock 0`).
* Python `str` values are Lean `String`s; where character-level reasoning is
  needed (`ServerSpec.endpoint`) the underlying `List Char` is used.
-/

/-- A Python/JSON value, as produced by `json.loads`. -/
inductive PyJson where
  | null : PyJson
  | bool (b : Bool) : PyJson
  | num (q : ℚ) : PyJson
  | str (s : String) : PyJson
  | arr (l : List PyJson) : PyJson
  | obj (l : List (String × PyJson)) : PyJson

/-- Python truthiness of a JSON-shaped value (`if x:`): `None`, `False`, `0`,
`""`, `[]` and `{}` are falsy. -/
def truthy : PyJson → Bool
  | .null => false
  | .bool b => b
  | .num q => q != 0
  | .str s => s != ""
  | .arr l => !l.isEmpty
  | .obj l => !l.isEmpty

/-- Python's `a or b` on JSON-shaped values. -/
def pyOr (a b : PyJson) : PyJson := if truthy a then a else b

/-- Python's `d.get(key, dflt)`; raises `AttributeError` when the receiver is
not a dict (source: `obj.get("choices")`, `delta.get("content", "")`, ...). -/
def dictGet (j : PyJson) (k : String) (dflt : PyJson) : Except String PyJson :=
  match j with
  | .obj kvs => .ok (((kvs.find? (fun kv => kv.1 == k)).map Prod.snd).getD dflt)
  | _ => .error "AttributeError"

/-- Python's `x[0]` as the source applies it to the `choices` value. -/
def index0 : PyJson → Except String PyJson
  | .arr (h :: _) => .ok h
  | .arr [] => .error "IndexError"
  | .str s => if s == "" then .error "IndexError" else .ok (.str (s.take 1))
  | .obj _ => .error "KeyError"
  | _ => .error "TypeError"

/-- Python's `len(x)` on a JSON-shaped value (`len` of a non-sized value
raises `TypeError`). -/
def pyLen : PyJson → Except String ℕ
  | .str s => .ok s.length
  | .arr l => .ok l.length
  | .obj l => .ok l.length
  | _ => .error "TypeError"

/-- Python's `len(x.encode("utf-8", errors="ignore"))`: the UTF-8 byte count
of a string (Lean strings are valid Unicode, so the lossy mode is the
identity); on a non-string receiver `.encode` raises `AttributeError`. -/
def pyEncLen : PyJson → Except String ℕ
  | .str s => .ok s.utf8ByteSize
  | _ => .error "AttributeError"

/-- Python's default `str.strip()` whitespace set (ASCII part). -/
def pySpace (c : Char) : Bool :=
  c == ' ' || c == '\t' || c == '\n' || c == '\r' || c.toNat == 11 || c.toNat == 12

/-- Python's `s.strip()`. -/
def pyStrip (s : String) : String :=
  ⟨((s.toList.dropWhile pySpace).reverse.dropWhile pySpace).reverse⟩

/-! ## The percentile estimator (source lines 89-100) -/

/-- Python's `int(k)` on a float: truncation toward zero. -/
def pyInt (q : ℚ) : ℤ := if 0 ≤ q then ⌊q⌋ else ⌈q⌉

/-- Python list indexing `s[i]`: a negative index counts from the end; an
index out of range raises `IndexError`. -/
def pyIndex (s : List ℚ) (i : ℤ) : Except String ℚ :=
  let j : ℤ := if i < 0 then (s.length : ℤ) + i else i
  if j < 0 then .error "IndexError"
  else
    match s[j.toNat]? with
    | some v => .ok v
    | none => .error "IndexError"

/-- Python's `sorted(values)`: a sorted copy (stable, ascending). -/
def sortQ (values : List ℚ) : List ℚ := List.insertionSort (· ≤ ·) values

/-- The non-empty case of `percentile` on the sorted copy `values_sorted`
(source lines 93-100). -/
def percentileBody (values_sorted : List ℚ) (p : ℚ) : Except String (Option ℚ) :=
  let k : ℚ := ((values_sorted.length : ℚ) - 1) * p
  let f : ℤ := pyInt k
  let c : ℤ := min (f + 1) ((values_sorted.length : ℤ) - 1)
  if f = c then do
    let v ← pyIndex values_sorted (pyInt k)
    pure (some v)
  else do
    let d0v ← pyIndex values_sorted f
    let d1v ← pyIndex values_sorted c
    pure (some (d0v * ((c : ℚ) - k) + d1v * (k - (f : ℚ))))

/-- Source `percentile(values, p)`: `nan` (here `none`) on an empty
sample, otherwise linear interpolation at rank `(n-1)*p` over a sorted copy.
An out-of-range index raises, which the embedding surfaces as `.error`. -/
def percentile (values : List ℚ) (p : ℚ) : Except String (Option ℚ) :=
  if values.isEmpty then .ok none
  else percentileBody (sortQ values) p

/-- The specification's description of the estimator on the sorted sample:
the value linearly interpolated at rank `k = (n-1)*p` between the floor and
ceiling (nearest-rank, clamped) order statistics. -/
def interpAtRankBody (s : List ℚ) (p : ℚ) : ℚ :=
  let k : ℚ := ((s.length : ℚ) - 1) * p
  let f : ℤ := ⌊k⌋
  let c : ℤ := min (f + 1) ((s.length : ℤ) - 1)
  let sf := s.getD f.toNat 0
  let sc := s.getD c.toNat 0
  sf + (k - (f : ℚ)) * (sc - sf)

/-- The specification's description of the estimator, stated independently of
the code's branch structure, over the sorted copy of the sample. -/
def interpAtRank (values : List ℚ) (p : ℚ) : ℚ :=
  interpAtRankBody (sortQ values) p

/-! ## Data model (source lines 39-77) -/

/-- Source `ServerSpec` (the spec's TargetSpec). The base URL is kept as its
character list, the representation `ServerSpec.endpoint` computes on. -/
structure ServerSpec where
  name : String
  base_url : List Char
  model : String

/-- The character lists `"/v1".toList` etc., the suffixes `ServerSpec.endpoint` tests. -/
def v1Chars : List Char := ['/', 'v', '1']

def v1SlashChars : List Char := ['/', 'v', '1', '/']

def chatChars : List Char := "/chat/completions".toList

def chatNoSlashChars : List Char := "chat/completions".toList

def v1ChatChars : List Char := "/v1/chat/completions".toList

/-- Python's `base_url.rstrip("/")`. -/
def rstripSlash (l : List Char) : List Char :=
  (l.reverse.dropWhile (· == '/')).reverse

/-- Source `ServerSpec.endpoint` (lines 45-52): normalize the base URL and
derive the chat-completions path. -/
def ServerSpec.endpoint (s : ServerSpec) : List Char :=
  let base := rstripSlash s.base_url
  if v1Chars.isSuffixOf base then base ++ chatChars
  else if v1SlashChars.isSuffixOf base then base ++ chatNoSlashChars
  else base ++ v1ChatChars

/-- Source `RequestConfig` (lines 55-61). -/
structure RequestConfig where
  temperature : ℚ := 2/10
  max_tokens : ℕ := 512
  stream : Bool := true
  timeout_seconds : ℚ := 60
  extra_json : Option (List (String × PyJson)) := none

/-- Source `SingleResult` (the spec's TrialOutcome, lines 64-76). -/
structure SingleResult where
  server : String
  model : String
  prompt_id : ℕ
  iteration : ℕ
  success : Bool
  status_code : Option ℤ
  ttft_ms : Option ℚ
  total_ms : Option ℚ
  output_chars : ℕ
  output_bytes : ℕ
  error : Option String
deriving DecidableEq

/-! ## The trial executor `run_single_chat` (source lines 103-240) -/

/-- One trial's interaction with the outside world: what the streaming
request would deliver (`.error msg` = the request raises; otherwise status
code, the SSE lines, and optionally a message raised by the line iterator
after the delivered lines), what the blocking POST would deliver, the
`json.loads` / `json.dumps` oracles, and the monotonic clock readings. -/
structure TrialEnv where
  streamResult : Except String (ℤ × List String × Option String)
  postResult : Except String (ℤ × String)
  jparse : String → Option PyJson
  jdumps : PyJson → String
  clock : ℕ → ℚ

/-- The framing step for one SSE line: strip the optional `data: ` marker and
surrounding whitespace (source lines 153-157). -/
def lineData (line : String) : String :=
  if line.toList.take 6 = "data: ".toList then pyStrip ⟨line.toList.drop 6⟩
  else pyStrip line

/-- Chunk extraction for one framed payload (source lines 162-175): a decode
failure makes the raw payload the chunk; otherwise the first choice's delta
content, falling back to a top-level content field. -/
def extractChunk (jparse : String → Option PyJson) (data : String) :
    Except String PyJson :=
  match jparse data with
  | none => .ok (.str data)
  | some obj => do
      let choicesRaw ← dictGet obj "choices" .null
      let choices := pyOr choicesRaw (.arr [])
      if truthy choices then do
        let c0 ← index0 choices
        let deltaRaw ← dictGet c0 "delta" .null
        let delta := pyOr deltaRaw (.obj [])
        let contentRaw ← dictGet delta "content" (.str "")
        pure (pyOr contentRaw (.str ""))
      else do
        let contentRaw ← dictGet obj "content" (.str "")
        pure (pyOr contentRaw (.str ""))

/-- The mutable locals of the streaming loop, plus the index of the next
`perf_counter` reading. -/
structure StState where
  ttft_ms : Option ℚ
  first_token_emitted : Bool
  output_chars : ℕ
  output_bytes : ℕ
  tick : ℕ
deriving DecidableEq

/-- The locals as they stand when the streaming request is issued. -/
def initSt : StState :=
  { ttft_ms := none, first_token_emitted := false,
    output_chars := 0, output_bytes := 0, tick := 1 }

/-- The body of `if chunk_text:` (source lines 177-182): record the
time-to-first-token once, then accumulate character and byte counts. A raised
error carries the locals as they stand at the raise. -/
def stepChunk (clock : ℕ → ℚ) (t0 : ℚ) (st : StState) (chunk : PyJson) :
    Except (String × StState) StState :=
  if truthy chunk then
    let st1 :=
      if st.first_token_emitted then st
      else { st with ttft_ms := some ((clock st.tick - t0) * 1000),
                     first_token_emitted := true, tick := st.tick + 1 }
    match pyLen chunk with
    | .error e => .error (e, st1)
    | .ok n =>
      let st2 := { st1 with output_chars := st1.output_chars + n }
      match pyEncLen chunk with
      | .error e => .error (e, st2)
      | .ok m => .ok { st2 with output_bytes := st2.output_bytes + m }
  else .ok st

/-- The `async for line in resp.aiter_lines()` loop (source lines 150-182).
Returns the locals and whether the loop stopped at a `[DONE]` frame (`true`)
or by exhausting the feed (`false`). -/
def streamLoop (jparse : String → Option PyJson) (clock : ℕ → ℚ) (t0 : ℚ) :
    List String → StState → Except (String × StState) (StState × Bool)
  | [], st => .ok (st, false)
  | line :: rest, st =>
    if line = "" then streamLoop jparse clock t0 rest st
    else
      let data := lineData line
      if data = "[DONE]" then .ok (st, true)
      else
        match extractChunk jparse data with
        | .error e => .error (e, st)
        | .ok chunk =>
          match stepChunk clock t0 st chunk with
          | .error es => .error es
          | .ok st2 => streamLoop jparse clock t0 rest st2

/-- The per-line test that a streamed frame carries no output token: the line
is blank, is the `[DONE]` sentinel after framing, or extracts a falsy chunk.
A feed all of whose lines satisfy this is a response with zero output
tokens. -/
def lineNoToken (jparse : String → Option PyJson) (line : String) : Bool :=
  line == "" ||
    (lineData line == "[DONE]" ||
      match extractChunk jparse (lineData line) with
      | .ok chunk => !truthy chunk
      | .error _ => false)

/-- Source line 212: `status_code is not None and 200 <= status_code < 300`. -/
def statusOk : Option ℤ → Bool
  | none => false
  | some c => decide (200 ≤ c ∧ c < 300)

/-- The non-streaming body measurement when the parsed body is a dict
(source lines 194-204); any error propagates to the inner `except`. -/
def nsFromObj (jdumps : PyJson → String) (d : PyJson) : Except String (ℕ × ℕ) := do
  let choicesRaw ← dictGet d "choices" .null
  let choices := pyOr choicesRaw (.arr [])
  if truthy choices then do
    let c0 ← index0 choices
    let msgRaw ← dictGet c0 "message" .null
    let msg := pyOr msgRaw (.obj [])
    let contentRaw ← dictGet msg "content" (.str "")
    let content := pyOr contentRaw (.str "")
    let n ← pyLen content
    let m ← pyEncLen content
    pure (n, m)
  else
    let text2 := jdumps d
    pure (text2.length, text2.utf8ByteSize)

/-- The non-streaming size computation (source lines 192-210): try the parsed
body; any failure inside the `try` falls back to measuring the raw text. -/
def nsSizes (jparse : String → Option PyJson) (jdumps : PyJson → String)
    (text : String) : ℕ × ℕ :=
  match jparse text with
  | none => (text.length, text.utf8ByteSize)
  | some d =>
    match d with
    | .obj kvs =>
      (match nsFromObj jdumps (.obj kvs) with
       | .ok cb => cb
       | .error _ => (text.length, text.utf8ByteSize))
    | _ => (text.length, text.utf8ByteSize)

/-- The `try` block of `run_single_chat`, streaming path (source lines
145-184): on success the status code, `ttft_ms`, `total_ms` and the two
sizes; on a raise, the message and the locals at the raise. -/
def tryStream (env : TrialEnv) : Except (String × StState) (ℤ × Option ℚ × ℚ × ℕ × ℕ) :=
  let t0 := env.clock 0
  match env.streamResult with
  | .error msg => .error (msg, initSt)
  | .ok (status, lines, tail) =>
    match streamLoop env.jparse env.clock t0 lines initSt with
    | .error es => .error es
    | .ok (st, broke) =>
      if broke then
        .ok (status, st.ttft_ms, (env.clock st.tick - t0) * 1000,
             st.output_chars, st.output_bytes)
      else
        match tail with
        | some msg => .error (msg, st)
        | none =>
          .ok (status, st.ttft_ms, (env.clock st.tick - t0) * 1000,
               st.output_chars, st.output_bytes)

/-- The `try` block of `run_single_chat`, non-streaming path (source lines
186-210): `total_ms` and `ttft_ms` are the same elapsed reading. -/
def tryPost (env : TrialEnv) : Except (String × StState) (ℤ × Option ℚ × ℚ × ℕ × ℕ) :=
  let t0 := env.clock 0
  match env.postResult with
  | .error msg => .error (msg, initSt)
  | .ok (status, text) =>
    let total := (env.clock 1 - t0) * 1000
    let sizes := nsSizes env.jparse env.jdumps text
    .ok (status, some total, total, sizes.1, sizes.2)

/-- Assemble the `SingleResult` (source lines 212-240): the success path sets
the status code and judges it; the `except Exception` path recomputes the
elapsed total, keeps the partial locals, clears the status code and stores
the exception text. -/
def assemble (env : TrialEnv) (server : ServerSpec) (prompt_id iteration : ℕ)
    (tryRes : Except (String × StState) (ℤ × Option ℚ × ℚ × ℕ × ℕ)) : SingleResult :=
  match tryRes with
  | .ok (status, ttft, total, chars, bytes) =>
    { server := server.name, model := server.model,
      prompt_id := prompt_id, iteration := iteration,
      success := statusOk (some status), status_code := some status,
      ttft_ms := ttft, total_ms := some total,
      output_chars := chars, output_bytes := bytes, error := none }
  | .error (msg, st) =>
    { server := server.name, model := server.model,
      prompt_id := prompt_id, iteration := iteration,
      success := false, status_code := none,
      ttft_ms := st.ttft_ms,
      total_ms := some ((env.clock st.tick - env.clock 0) * 1000),
      output_chars := st.output_chars, output_bytes := st.output_bytes,
      error := some msg }

/-- Source `run_single_chat` (lines 103-240). The request construction
(payload, headers) only shapes the wire traffic, which `TrialEnv` abstracts;
every observable field of the outcome is modelled. -/
def run_single_chat (env : TrialEnv) (server : ServerSpec)
    (prompt_id iteration : ℕ) (prompt_text : String) (cfg : RequestConfig) :
    SingleResult :=
  assemble env server prompt_id iteration
    (if cfg.stream then tryStream env else tryPost env)

/-! ## The scheduler `run_benchmark` (source lines 243-269) -/

/-- The submission-ordered cartesian product of trials (source lines
259-262): servers x (enumerated) prompts x iterations `1..n`. -/
def trialSpecs (servers : List ServerSpec) (prompts : List String)
    (iterations : ℕ) : List (ServerSpec × ℕ × ℕ × String) :=
  servers.flatMap (fun srv =>
    prompts.enum.flatMap (fun pp =>
      (List.range iterations).map (fun j => (srv, pp.1, j + 1, pp.2))))

/-- One created task per trial spec, in submission order; task `i` runs
against environment `envs i`. The admission semaphore only delays execution,
so it does not appear in the functional model. -/
def trialTasks (envs : ℕ → TrialEnv) (servers : List ServerSpec)
    (prompts : List String) (iterations : ℕ) (cfg : RequestConfig) :
    List SingleResult :=
  (trialSpecs servers prompts iterations).enum.map
    (fun ie => run_single_chat (envs ie.1) ie.2.1 ie.2.2.1 ie.2.2.2.1 ie.2.2.2.2 cfg)

/-- Source `run_benchmark` (lines 243-269): results are collected in
completion order, modelled by a schedule `sched` listing task indices in the
order `asyncio.as_completed` yields them; a faithful schedule is a
permutation of the created task indices. -/
def run_benchmark (envs : ℕ → TrialEnv) (servers : List ServerSpec)
    (prompts : List String) (iterations : ℕ) (concurrency : ℕ)
    (cfg : RequestConfig) (sched : List ℕ) : List SingleResult :=
  sched.filterMap (fun i => (trialTasks envs servers prompts iterations cfg)[i]?)

/-! ## The aggregator `aggregate` (source lines 272-307) -/

/-- One summary record (the dict built at source lines 291-305). -/
structure GroupSummary where
  runs : ℕ
  success_rate : ℚ
  ttft_ms_avg : Option ℚ
  ttft_ms_p50 : Option ℚ
  ttft_ms_p95 : Option ℚ
  total_ms_avg : Option ℚ
  total_ms_p50 : Option ℚ
  total_ms_p95 : Option ℚ
  output_chars_avg : Option ℚ
  output_bytes_avg : Option ℚ
  chars_per_sec_avg : Option ℚ
  bytes_per_sec_avg : Option ℚ
deriving DecidableEq

/-- Source `[i.total_ms for i in items if i.success and i.total_ms is not None]`. -/
def latList (items : List SingleResult) : List ℚ :=
  items.filterMap (fun i => if i.success then i.total_ms else none)

/-- Source `[i.ttft_ms for i in items if i.success and i.ttft_ms is not None]`. -/
def ttftList (items : List SingleResult) : List ℚ :=
  items.filterMap (fun i => if i.success then i.ttft_ms else none)

/-- Source `[i.output_chars for i in items if i.success]`. -/
def charsList (items : List SingleResult) : List ℚ :=
  items.filterMap (fun i => if i.success then some (i.output_chars : ℚ) else none)

/-- Source `[i.output_bytes for i in items if i.success]`. -/
def bytesList (items : List SingleResult) : List ℚ :=
  items.filterMap (fun i => if i.success then some (i.output_bytes : ℚ) else none)

/-- Source `sum(l) / len(l) if l else float("nan")`. -/
def pymean? (l : List ℚ) : Option ℚ :=
  if l.isEmpty then none else some (l.sum / (l.length : ℚ))

/-- Python float division lifted to the nan-sentinel representation: dividing
by zero raises `ZeroDivisionError`; nan propagates through otherwise. -/
def pyDiv (a b : Option ℚ) : Except String (Option ℚ) :=
  match b with
  | some q =>
    if q = 0 then .error "ZeroDivisionError"
    else .ok (match a with | some x => some (x / q) | none => none)
  | none => .ok none

/-- Source `percentile(l, p) if l else float("nan")`: the guarded percentile
expressions of the summary dict (source lines 295-299). -/
def guardPercentile (l : List ℚ) (p : ℚ) : Except String (Option ℚ) :=
  if l.isEmpty then pure none else percentile l p

/-- Source `(avg_size / (total_avg / 1000.0)) if latencies else float("nan")`: the
guarded throughput expressions of the summary dict (source lines 303-304). -/
def guardThroughput (latencies : List ℚ) (avg_size total_avg : Option ℚ) :
    Except String (Option ℚ) :=
  if latencies.isEmpty then pure none
  else do
    let denom ← pyDiv total_avg (some 1000)
    pyDiv avg_size denom

/-- The per-group reduction (source lines 280-305) on the four filtered
sample lists plus the run and success counts. -/
def summarizeCore (nruns nsucc : ℕ) (latencies ttfts out_chars out_bytes : List ℚ) :
    Except String GroupSummary := do
  let success_rate : ℚ := (nsucc : ℚ) / (max 1 nruns : ℚ)
  let total_ms_avg := pymean? latencies
  let ttft_ms_avg := pymean? ttfts
  let chars_avg := pymean? out_chars
  let bytes_avg := pymean? out_bytes
  let ttft_p50 ← guardPercentile ttfts (1/2)
  let ttft_p95 ← guardPercentile ttfts (19/20)
  let total_p50 ← guardPercentile latencies (1/2)
  let total_p95 ← guardPercentile latencies (19/20)
  let cps ← guardThroughput latencies chars_avg total_ms_avg
  let bps ← guardThroughput latencies bytes_avg total_ms_avg
  pure { runs := nruns, success_rate := success_rate,
         ttft_ms_avg := ttft_ms_avg, ttft_ms_p50 := ttft_p50, ttft_ms_p95 := ttft_p95,
         total_ms_avg := total_ms_avg, total_ms_p50 := total_p50, total_ms_p95 := total_p95,
         output_chars_avg := chars_avg, output_bytes_avg := bytes_avg,
         chars_per_sec_avg := cps, bytes_per_sec_avg := bps }

/-- The per-group reduction applied to one group's outcome list. -/
def summarize (items : List SingleResult) : Except String GroupSummary :=
  summarizeCore items.length (items.filter (fun i => i.success)).length
    (latList items) (ttftList items) (charsList items) (bytesList items)

/-- The grouping keys in first-seen order (the insertion order of the
`groups` dict built with `setdefault`, source lines 273-276). -/
def firstKeys (results : List SingleResult) : List (String × String) :=
  results.foldl
    (fun acc r =>
      if (r.server, r.model) ∈ acc then acc else acc ++ [(r.server, r.model)])
    []

/-- One group: the results carrying the given key, in arrival order. -/
def groupOf (results : List SingleResult) (key : String × String) :
    List SingleResult :=
  results.filter (fun r => decide ((r.server, r.model) = key))

/-- The summary-building loop over the grouping keys (source lines 278-305);
a raise inside any group's reduction aborts `aggregate`. -/
def aggMap (results : List SingleResult) :
    List (String × String) → Except String (List ((String × String) × GroupSummary))
  | [] => .ok []
  | k :: ks => do
    let s ← summarize (groupOf results k)
    let rest ← aggMap results ks
    pure ((k, s) :: rest)

/-- Source `aggregate` (lines 272-307). -/
def aggregate (results : List SingleResult) :
    Except String (List ((String × String) × GroupSummary)) :=
  aggMap results (firstKeys results)

/-! ## Concrete fixtures used by counterexamples and witnesses -/

/-- A trial environment whose requests raise immediately ("connection
refused" before any byte), with a unit-step clock. -/
def envRefused : TrialEnv :=
  { streamResult := .error "connection refused",
    postResult := .error "connection refused",
    jparse := fun _ => none,
    jdumps := fun _ => "null",
    clock := fun i => (i : ℚ) }

/-- A non-streaming environment answering 200 with an OpenAI-shaped body
whose message content is empty: a response with zero output tokens. -/
def envEmptyContent : TrialEnv :=
  { streamResult := .error "unused",
    postResult := .ok (200, "body"),
    jparse := fun _ =>
      some (.obj [("choices", .arr [.obj [("message", .obj [("content", .str "")])]])]),
    jdumps := fun _ => "null",
    clock := fun i => (i : ℚ) }

/-- A streaming environment answering 200 with a single `[DONE]` frame:
a streamed response with zero output tokens. -/
def envDoneOnly : TrialEnv :=
  { streamResult := .ok (200, ["data: [DONE]"], none),
    postResult := .error "unused",
    jparse := fun _ => none,
    jdumps := fun _ => "null",
    clock := fun i => (i : ℚ) }

/-- A server fixture. -/
def srvLocal : ServerSpec :=
  { name := "ollama", base_url := "http://localhost:11434".toList, model := "llama3.1" }

/-- The default request configuration, streaming on. -/
def cfgStream : RequestConfig := {}

/-- The default request configuration, streaming off (`--no-stream`). -/
def cfgNoStream : RequestConfig := { stream := false }

/-- A successful outcome whose total duration is zero milliseconds: the
degenerate group that makes the aggregator's throughput division raise. -/
def rZeroMs : SingleResult :=
  { server := "s", model := "m", prompt_id := 0, iteration := 1,
    success := true, status_code := some 200, ttft_ms := none,
    total_ms := some 0, output_chars := 5, output_bytes := 5, error := none }

/-- A failed outcome (transport failure): no timing fields qualify. -/
def rFailed : SingleResult :=
  { server := "s", model := "m", prompt_id := 0, iteration := 1,
    success := false, status_code := none, ttft_ms := none,
    total_ms := some 3, output_chars := 0, output_bytes := 0, error := some "boom" }

/-- A successful outcome with total duration 2 ms and 4 output chars/bytes. -/
def rTwoMs : SingleResult :=
  { server := "s", model := "m", prompt_id := 0, iteration := 1,
    success := true, status_code := some 200, ttft_ms := some 1,
    total_ms := some 2, output_chars := 4, output_bytes := 4, error := none }

/-! ## Facts about the sorted copy -/

theorem sortQ_length (l : List ℚ) : (sortQ l).length = l.length :=
  List.length_insertionSort _ l

theorem sortQ_sorted (l : List ℚ) : (sortQ l).Sorted (· ≤ ·) :=
  List.sorted_insertionSort _ l

theorem sortQ_perm (l : List ℚ) : (sortQ l).Perm l :=
  List.perm_insertionSort _ l

theorem sortQ_ne_nil {l : List ℚ} (hl : l ≠ []) : sortQ l ≠ [] := by
  intro h
  apply hl
  have hlen := sortQ_length l
  rw [h] at hlen
  exact List.length_eq_zero.mp hlen.symm

/-! ## In-bounds indexing -/

theorem pyIndex_ok (s : List ℚ) (i : ℤ) (h0 : 0 ≤ i) (hlt : i < (s.length : ℤ)) :
    pyIndex s i = .ok (s.getD i.toNat 0) := by
  have hn : i.toNat < s.length := by omega
  unfold pyIndex
  simp only [not_lt.mpr h0, if_false, if_neg (not_lt.mpr h0)]
  rw [List.getElem?_eq_getElem hn]
  rw [List.getD_eq_getElem s 0 hn]

theorem pyIndex_oob (s : List ℚ) (i : ℤ) (h0 : 0 ≤ i) (hge : (s.length : ℤ) ≤ i) :
    pyIndex s i = .error "IndexError" := by
  have hn : ¬ i.toNat < s.length := by omega
  unfold pyIndex
  simp only [not_lt.mpr h0, if_false, if_neg (not_lt.mpr h0)]
  rw [List.getElem?_eq_none (by omega)]

/-! ## The percentile estimator computes the interpolated order statistic -/

theorem percentileBody_eq (s : List ℚ) (p : ℚ) (h1s : 1 ≤ s.length)
    (h0 : 0 ≤ p) (h1 : p ≤ 1) :
    percentileBody s p = .ok (some (interpAtRankBody s p)) := by
  have hcast : (1 : ℚ) ≤ (s.length : ℚ) := by exact_mod_cast h1s
  simp only [percentileBody, interpAtRankBody]
  set k : ℚ := ((s.length : ℚ) - 1) * p with hk
  have hk0 : 0 ≤ k := mul_nonneg (by linarith) h0
  have hkn : k ≤ (s.length : ℚ) - 1 := by
    calc k ≤ ((s.length : ℚ) - 1) * 1 := by
          exact mul_le_mul_of_nonneg_left h1 (by linarith)
    _ = (s.length : ℚ) - 1 := mul_one _
  have hpy : pyInt k = ⌊k⌋ := if_pos hk0
  have hf0 : 0 ≤ ⌊k⌋ := Int.floor_nonneg.mpr hk0
  have hfn : ⌊k⌋ ≤ (s.length : ℤ) - 1 := by
    have h2 : k ≤ (((s.length : ℤ) - 1 : ℤ) : ℚ) := by push_cast; linarith
    simpa using Int.floor_mono h2
  rw [hpy]
  by_cases hfc : ⌊k⌋ = min (⌊k⌋ + 1) ((s.length : ℤ) - 1)
  · rw [if_pos hfc]
    rw [pyIndex_ok s ⌊k⌋ hf0 (by omega)]
    rw [← hfc]
    rw [sub_self, mul_zero, add_zero]
    rfl
  · rw [if_neg hfc]
    have hlt : ⌊k⌋ + 1 ≤ (s.length : ℤ) - 1 := by
      rcases le_or_lt (⌊k⌋ + 1) ((s.length : ℤ) - 1) with h | h
      · exact h
      · exfalso; apply hfc; rw [min_eq_right (by omega)]; omega
    have hc : min (⌊k⌋ + 1) ((s.length : ℤ) - 1) = ⌊k⌋ + 1 := min_eq_left hlt
    rw [hc]
    rw [pyIndex_ok s ⌊k⌋ hf0 (by omega), pyIndex_ok s (⌊k⌋ + 1) (by omega) (by omega)]
    simp only [bind, Except.bind, pure, Except.pure, Except.ok.injEq, Option.some.injEq]
    push_cast
    ring

theorem percentile_eq_interp (l : List ℚ) (p : ℚ) (hl : l ≠ [])
    (h0 : 0 ≤ p) (h1 : p ≤ 1) :
    percentile l p = .ok (some (interpAtRank l p)) := by
  have hemp : l.isEmpty = false := by simpa [List.isEmpty_iff] using hl
  have h1s : 1 ≤ (sortQ l).length := by
    rw [sortQ_length]; exact List.length_pos.mpr hl
  unfold percentile interpAtRank
  rw [hemp, if_neg Bool.false_ne_true]
  exact percentileBody_eq (sortQ l) p h1s h0 h1

theorem percentile_ok_bounds (values : List ℚ) (p : ℚ) (h0 : 0 ≤ p) (h1 : p ≤ 1) :
    ∃ r, percentile values p = .ok r := by
  rcases eq_or_ne values [] with rfl | hne
  · exact ⟨none, rfl⟩
  · exact ⟨some (interpAtRank values p), percentile_eq_interp values p hne h0 h1⟩

theorem percentile_zero (l : List ℚ) (hl : l ≠ []) :
    percentile l 0 = .ok (some ((sortQ l).getD 0 0)) := by
  rw [percentile_eq_interp l 0 hl le_rfl zero_le_one]
  unfold interpAtRank interpAtRankBody
  simp

theorem percentile_one (l : List ℚ) (hl : l ≠ []) :
    percentile l 1 = .ok (some ((sortQ l).getD (l.length - 1) 0)) := by
  have h1s : 1 ≤ (sortQ l).length := by
    rw [sortQ_length]; exact List.length_pos.mpr hl
  rw [percentile_eq_interp l 1 hl zero_le_one le_rfl]
  unfold interpAtRank interpAtRankBody
  have hfl : ⌊((sortQ l).length : ℚ) - 1⌋ = ((sortQ l).length : ℤ) - 1 := by
    rw [show (((sortQ l).length : ℚ) - 1) = ((((sortQ l).length : ℤ) - 1 : ℤ) : ℚ) by
      push_cast; ring]
    exact Int.floor_intCast _
  simp only [mul_one, hfl]
  have hmin : min (((sortQ l).length : ℤ) - 1 + 1) (((sortQ l).length : ℤ) - 1)
      = ((sortQ l).length : ℤ) - 1 := by omega
  rw [hmin]
  have htn : (((sortQ l).length : ℤ) - 1).toNat = l.length - 1 := by
    rw [sortQ_length]; omega
  rw [htn]
  simp only [Except.ok.injEq, Option.some.injEq]
  ring

/-! ## Sorted-copy order statistics are the sample extremes -/

theorem getD_zero_mem {t : List ℚ} (ht : t ≠ []) : t.getD 0 0 ∈ t := by
  have h : 0 < t.length := List.length_pos.mpr ht
  rw [List.getD_eq_getElem t 0 h]
  exact List.getElem_mem h

theorem getD_last_mem {t : List ℚ} (ht : t ≠ []) : t.getD (t.length - 1) 0 ∈ t := by
  have h : t.length - 1 < t.length := by
    have := List.length_pos.mpr ht; omega
  rw [List.getD_eq_getElem t 0 h]
  exact List.getElem_mem h

theorem sorted_getD_zero_le {t : List ℚ} (hs : t.Sorted (· ≤ ·)) :
    ∀ x ∈ t, t.getD 0 0 ≤ x := by
  intro x hx
  cases t with
  | nil => cases hx
  | cons a t =>
    rcases List.mem_cons.mp hx with rfl | hxt
    · simp [List.getD_cons_zero]
    · simpa [List.getD_cons_zero] using List.rel_of_sorted_cons hs x hxt

theorem sorted_le_getD_last {t : List ℚ} (hs : t.Sorted (· ≤ ·)) :
    ∀ x ∈ t, x ≤ t.getD (t.length - 1) 0 := by
  induction t with
  | nil => intro x hx; cases hx
  | cons a t ih =>
    intro x hx
    rcases List.sorted_cons.mp hs with ⟨ha, hst⟩
    cases t with
    | nil =>
      rcases List.mem_cons.mp hx with rfl | h
      · simp [List.getD_cons_zero]
      · cases h
    | cons b t' =>
      have hgd : (a :: b :: t').getD ((a :: b :: t').length - 1) 0
          = (b :: t').getD ((b :: t').length - 1) 0 := by
        simp [List.getD_cons_succ]
      rw [hgd]
      rcases List.mem_cons.mp hx with rfl | hxt
      · exact ha _ (getD_last_mem (by simp))
      · exact ih hst x hxt

theorem percentile_zero_min (l : List ℚ) (hl : l ≠ []) :
    ∃ m, percentile l 0 = .ok (some m) ∧ m ∈ l ∧ ∀ x ∈ l, m ≤ x := by
  refine ⟨(sortQ l).getD 0 0, percentile_zero l hl, ?_, ?_⟩
  · exact (sortQ_perm l).mem_iff.mp (getD_zero_mem (sortQ_ne_nil hl))
  · intro x hx
    exact sorted_getD_zero_le (sortQ_sorted l) x ((sortQ_perm l).mem_iff.mpr hx)

theorem percentile_one_max (l : List ℚ) (hl : l ≠ []) :
    ∃ M, percentile l 1 = .ok (some M) ∧ M ∈ l ∧ ∀ x ∈ l, x ≤ M := by
  have hsl : (sortQ l).length = l.length := sortQ_length l
  refine ⟨(sortQ l).getD (l.length - 1) 0, percentile_one l hl, ?_, ?_⟩
  · rw [← hsl]
    exact (sortQ_perm l).mem_iff.mp (getD_last_mem (sortQ_ne_nil hl))
  · intro x hx
    rw [← hsl]
    exact sorted_le_getD_last (sortQ_sorted l) x ((sortQ_perm l).mem_iff.mpr hx)

/-- For p strictly above 1 the index computation can overrun: the concrete
sample [0, 1, 2] at p = 2 indexes position 4 of a 3-element list. -/
theorem percentile_oob_example : percentile [0, 1, 2] 2 = .error "IndexError" := by
  have hs : sortQ [0, 1, 2] = [(0 : ℚ), 1, 2] := rfl
  unfold percentile
  rw [if_neg (by simp)]
  rw [hs]
  simp only [percentileBody]
  have hk : ((([(0 : ℚ), 1, 2].length : ℚ)) - 1) * 2 = 4 := by norm_num
  rw [hk]
  have hpy : pyInt 4 = 4 := by
    unfold pyInt
    rw [if_pos (by norm_num)]
    simp
  rw [hpy]
  have hmin : min ((4 : ℤ) + 1) (([(0 : ℚ), 1, 2].length : ℤ) - 1) = 2 := by
    simp
  rw [hmin]
  rw [if_neg (by omega)]
  rw [pyIndex_oob [(0 : ℚ), 1, 2] 4 (by omega) (by simp)]
  rfl

/-- Claim C7: for every non-empty numeric sample and every p in [0, 1], the
percentile estimator returns the value linearly interpolated at rank
(n-1)*p between the floor and ceiling order statistics of the sorted sample;
in particular at p = 0 it returns the minimum of the sample and at p = 1 the
maximum. -/
theorem percentile_linear_interpolation (l : List ℚ) (p : ℚ) (hl : l ≠ [])
    (h0 : 0 ≤ p) (h1 : p ≤ 1) :
    percentile l p = .ok (some (interpAtRank l p)) ∧
    (∃ m, percentile l 0 = .ok (some m) ∧ m ∈ l ∧ ∀ x ∈ l, m ≤ x) ∧
    (∃ M, percentile l 1 = .ok (some M) ∧ M ∈ l ∧ ∀ x ∈ l, x ≤ M) :=
  ⟨percentile_eq_interp l p hl h0 h1, percentile_zero_min l hl, percentile_one_max l hl⟩

/-- Witness for C7 at the concrete sample [3, 1, 2] and p = 1. -/
theorem percentile_linear_interpolation_witness :
    percentile [3, 1, 2] 1 = .ok (some (interpAtRank [3, 1, 2] 1)) ∧
    (∃ m, percentile [3, 1, 2] 0 = .ok (some m) ∧ m ∈ [(3 : ℚ), 1, 2] ∧
      ∀ x ∈ [(3 : ℚ), 1, 2], m ≤ x) ∧
    (∃ M, percentile [3, 1, 2] 1 = .ok (some M) ∧ M ∈ [(3 : ℚ), 1, 2] ∧
      ∀ x ∈ [(3 : ℚ), 1, 2], x ≤ M) :=
  percentile_linear_interpolation [3, 1, 2] 1 (by decide) (by decide) (by decide)

/-- Claim C10: for every sample and every p with 0 ≤ p ≤ 1 the estimator
performs no out-of-bounds access: it returns without raising, and on the
empty sample it returns the sentinel without indexing; the guarantee does not
extend to p > 1, where the sample [0, 1, 2] at p = 2 raises IndexError. -/
theorem percentile_index_safety (values : List ℚ) (p : ℚ)
    (h0 : 0 ≤ p) (h1 : p ≤ 1) :
    (∃ r, percentile values p = .ok r) ∧
    (values = [] → percentile values p = .ok none) ∧
    percentile [0, 1, 2] 2 = .error "IndexError" :=
  ⟨percentile_ok_bounds values p h0 h1,
   fun h => by subst h; rfl,
   percentile_oob_example⟩

/-- Witness for C10 at the empty sample and p = 0. -/
theorem percentile_index_safety_witness :
    (∃ r, percentile [] 0 = .ok r) ∧
    (([] : List ℚ) = [] → percentile [] 0 = .ok none) ∧
    percentile [0, 1, 2] 2 = .error "IndexError" :=
  percentile_index_safety [] 0 (by decide) (by decide)

/-! ## Endpoint normalization -/

theorem rstripSlash_append_slash (b : List Char) :
    rstripSlash (b ++ ['/']) = rstripSlash b := by
  unfold rstripSlash
  rw [List.reverse_append]
  simp [List.dropWhile_cons]

theorem rstripSlash_eq_self {b : List Char} (h : ¬ (['/'] <:+ b)) :
    rstripSlash b = b := by
  unfold rstripSlash
  cases hrev : b.reverse with
  | nil =>
    simpa using (List.reverse_eq_nil_iff.mp hrev).symm
  | cons c t =>
    have hb : b = t.reverse ++ [c] := by
      have hbr : b = (c :: t).reverse := by rw [← hrev, List.reverse_reverse]
      simpa using hbr
    have hc : (c == '/') = false := by
      rcases Bool.eq_false_or_eq_true (c == '/') with ht | hf
      · exfalso
        apply h
        refine ⟨t.reverse, ?_⟩
        rw [hb, (beq_iff_eq.mp ht)]
      · exact hf
    rw [List.dropWhile_cons, hc]
    simp [hb]

theorem rstripSlash_append_ne {b : List Char} {c : Char} (h : (c == '/') = false) :
    rstripSlash (b ++ [c]) = b ++ [c] := by
  unfold rstripSlash
  rw [List.reverse_append]
  simp [List.dropWhile_cons, h]

/-- Claim C8: every derived endpoint ends in the single completions path
`/v1/chat/completions`; appending a trailing slash to any base URL leaves the
endpoint unchanged, and appending a `/v1` suffix to a base URL that does not
already end in a slash or in `/v1` also leaves the endpoint unchanged. -/
theorem endpoint_canonical :
    (∀ s : ServerSpec, v1ChatChars <:+ s.endpoint) ∧
    (∀ (nm md : String) (b : List Char),
      ServerSpec.endpoint ⟨nm, b ++ ['/'], md⟩ = ServerSpec.endpoint ⟨nm, b, md⟩) ∧
    (∀ (nm md : String) (b : List Char),
      (['/'].isSuffixOf b) = false → (v1Chars.isSuffixOf b) = false →
      ServerSpec.endpoint ⟨nm, b ++ v1Chars, md⟩ = ServerSpec.endpoint ⟨nm, b, md⟩) := by
  refine ⟨?_, ?_, ?_⟩
  · intro s
    simp only [ServerSpec.endpoint]
    set base := rstripSlash s.base_url with hbase
    by_cases h1 : v1Chars.isSuffixOf base
    · rw [if_pos h1]
      obtain ⟨pre, hpre⟩ := List.isSuffixOf_iff_suffix.mp h1
      rw [← hpre, List.append_assoc]
      rw [show v1Chars ++ chatChars = v1ChatChars from rfl]
      exact List.suffix_append pre v1ChatChars
    · rw [if_neg h1]
      by_cases h2 : v1SlashChars.isSuffixOf base
      · rw [if_pos h2]
        obtain ⟨pre, hpre⟩ := List.isSuffixOf_iff_suffix.mp h2
        rw [← hpre, List.append_assoc]
        rw [show v1SlashChars ++ chatNoSlashChars = v1ChatChars from rfl]
        exact List.suffix_append pre v1ChatChars
      · rw [if_neg h2]
        exact List.suffix_append base v1ChatChars
  · intro nm md b
    simp only [ServerSpec.endpoint]
    rw [rstripSlash_append_slash b]
  · intro nm md b hsl hv1
    have hsl' : ¬ (['/'] <:+ b) :=
      fun hc => by rw [List.isSuffixOf_iff_suffix.mpr hc] at hsl; cases hsl
    have hv1' : ¬ (v1Chars <:+ b) :=
      fun hc => by rw [List.isSuffixOf_iff_suffix.mpr hc] at hv1; cases hv1
    simp only [ServerSpec.endpoint]
    have hb : rstripSlash b = b := rstripSlash_eq_self hsl'
    have hbv : rstripSlash (b ++ v1Chars) = b ++ v1Chars := by
      rw [show v1Chars = ['/', 'v'] ++ ['1'] from rfl, ← List.append_assoc]
      exact rstripSlash_append_ne (by decide)
    rw [hb, hbv]
    rw [if_pos (List.isSuffixOf_iff_suffix.mpr (List.suffix_append b v1Chars))]
    rw [if_neg (fun hc => hv1' (List.isSuffixOf_iff_suffix.mp hc))]
    rw [if_neg (fun hc : v1SlashChars.isSuffixOf b = true => hsl'
      (List.IsSuffix.trans (show ['/'] <:+ v1SlashChars from ⟨['/', 'v', '1'], rfl⟩)
        (List.isSuffixOf_iff_suffix.mp hc)))]
    rw [List.append_assoc]
    rfl

/-- Witness for C8 at the concrete base URL http://h. -/
theorem endpoint_canonical_witness :
    v1ChatChars <:+ srvLocal.endpoint ∧
    ServerSpec.endpoint ⟨"n", "http://h".toList ++ ['/'], "m"⟩
      = ServerSpec.endpoint ⟨"n", "http://h".toList, "m"⟩ ∧
    ServerSpec.endpoint ⟨"n", "http://h".toList ++ v1Chars, "m"⟩
      = ServerSpec.endpoint ⟨"n", "http://h".toList, "m"⟩ :=
  ⟨endpoint_canonical.1 srvLocal,
   endpoint_canonical.2.1 "n" "m" _,
   endpoint_canonical.2.2 "n" "m" "http://h".toList (by decide) (by decide)⟩

/-! ## The trial executor: success judgement and failure capture -/

theorem assemble_success_iff (env : TrialEnv) (server : ServerSpec)
    (pid it : ℕ) (tryRes : Except (String × StState) (ℤ × Option ℚ × ℚ × ℕ × ℕ)) :
    ((assemble env server pid it tryRes).success = true ↔
      ∃ c, (assemble env server pid it tryRes).status_code = some c ∧
        200 ≤ c ∧ c < 300) := by
  cases tryRes with
  | ok v =>
    obtain ⟨status, ttft, total, chars, bytes⟩ := v
    simp only [assemble, statusOk]
    constructor
    · intro h
      exact ⟨status, rfl, (of_decide_eq_true h).1, (of_decide_eq_true h).2⟩
    · rintro ⟨c, hc, h1, h2⟩
      obtain rfl : status = c := by
        simpa using hc
      exact decide_eq_true ⟨h1, h2⟩
  | error es =>
    obtain ⟨msg, st⟩ := es
    simp [assemble]

/-- Claim C4: for every outcome the executor produces (the exception path
included), success is true iff a status code is present and lies in
[200, 300). -/
theorem success_iff_status_in_range (env : TrialEnv) (server : ServerSpec)
    (pid it : ℕ) (prompt : String) (cfg : RequestConfig) :
    ((run_single_chat env server pid it prompt cfg).success = true ↔
      ∃ c, (run_single_chat env server pid it prompt cfg).status_code = some c ∧
        200 ≤ c ∧ c < 300) := by
  unfold run_single_chat
  exact assemble_success_iff env server pid it _

/-- Claim C5: a trial whose transport raises returns (never propagates) an
outcome with success false, no status code, the exception's text as a
non-empty error string, and a defined total duration; this covers a raise at
request time on either path and a raise from the line iterator mid-stream. -/
theorem transport_exception_outcome (env : TrialEnv) (server : ServerSpec)
    (pid it : ℕ) (prompt : String) (cfg : RequestConfig) (msg : String)
    (hmsg : msg ≠ "") :
    (cfg.stream = true → env.streamResult = .error msg →
      (run_single_chat env server pid it prompt cfg).success = false ∧
      (run_single_chat env server pid it prompt cfg).status_code = none ∧
      (run_single_chat env server pid it prompt cfg).error = some msg ∧
      (run_single_chat env server pid it prompt cfg).error ≠ some "" ∧
      (run_single_chat env server pid it prompt cfg).ttft_ms = none ∧
      (run_single_chat env server pid it prompt cfg).total_ms
        = some ((env.clock 1 - env.clock 0) * 1000)) ∧
    (cfg.stream = false → env.postResult = .error msg →
      (run_single_chat env server pid it prompt cfg).success = false ∧
      (run_single_chat env server pid it prompt cfg).status_code = none ∧
      (run_single_chat env server pid it prompt cfg).error = some msg ∧
      (run_single_chat env server pid it prompt cfg).error ≠ some "" ∧
      (run_single_chat env server pid it prompt cfg).ttft_ms = none ∧
      (run_single_chat env server pid it prompt cfg).total_ms
        = some ((env.clock 1 - env.clock 0) * 1000)) ∧
    (∀ status lines st, cfg.stream = true →
      env.streamResult = .ok (status, lines, some msg) →
      streamLoop env.jparse env.clock (env.clock 0) lines initSt = .ok (st, false) →
      (run_single_chat env server pid it prompt cfg).success = false ∧
      (run_single_chat env server pid it prompt cfg).status_code = none ∧
      (run_single_chat env server pid it prompt cfg).error = some msg ∧
      (run_single_chat env server pid it prompt cfg).total_ms
        = some ((env.clock st.tick - env.clock 0) * 1000)) := by
  refine ⟨?_, ?_, ?_⟩
  · intro hs hr
    have hrun : run_single_chat env server pid it prompt cfg
        = assemble env server pid it (.error (msg, initSt)) := by
      simp only [run_single_chat, hs, if_true, tryStream, hr]
    rw [hrun]
    exact ⟨rfl, rfl, rfl, by simpa [assemble] using hmsg, rfl, rfl⟩
  · intro hs hr
    have hrun : run_single_chat env server pid it prompt cfg
        = assemble env server pid it (.error (msg, initSt)) := by
      simp only [run_single_chat, hs, Bool.false_eq_true, if_false, tryPost, hr]
    rw [hrun]
    exact ⟨rfl, rfl, rfl, by simpa [assemble] using hmsg, rfl, rfl⟩
  · intro status lines st hs hr hloop
    have hrun : run_single_chat env server pid it prompt cfg
        = assemble env server pid it (.error (msg, st)) := by
      simp only [run_single_chat, hs, if_true, tryStream, hr, hloop,
        Bool.false_eq_true, if_false]
    rw [hrun]
    exact ⟨rfl, rfl, rfl, rfl⟩

/-- Witness for C5: a streaming trial refused at connection time. -/
theorem transport_exception_outcome_witness :
    (run_single_chat envRefused srvLocal 0 1 "p" cfgStream).success = false ∧
    (run_single_chat envRefused srvLocal 0 1 "p" cfgStream).status_code = none ∧
    (run_single_chat envRefused srvLocal 0 1 "p" cfgStream).error
      = some "connection refused" ∧
    (run_single_chat envRefused srvLocal 0 1 "p" cfgStream).error ≠ some "" ∧
    (run_single_chat envRefused srvLocal 0 1 "p" cfgStream).ttft_ms = none ∧
    (run_single_chat envRefused srvLocal 0 1 "p" cfgStream).total_ms
      = some ((envRefused.clock 1 - envRefused.clock 0) * 1000) :=
  (transport_exception_outcome envRefused srvLocal 0 1 "p" cfgStream
    "connection refused" (by decide)).1 rfl rfl

/-! ## Zero-output-token responses -/

theorem streamLoop_no_token (jparse : String → Option PyJson) (clock : ℕ → ℚ)
    (t0 : ℚ) :
    ∀ (lines : List String) (st : StState),
      (∀ line ∈ lines, lineNoToken jparse line = true) →
      ∃ b, streamLoop jparse clock t0 lines st = .ok (st, b) := by
  intro lines
  induction lines with
  | nil => exact fun st _ => ⟨false, rfl⟩
  | cons line rest ih =>
    intro st h
    have hline := h line (List.mem_cons_self line rest)
    have hrest : ∀ l ∈ rest, lineNoToken jparse l = true :=
      fun l hl => h l (List.mem_cons.mpr (Or.inr hl))
    unfold streamLoop
    by_cases hemp : line = ""
    · rw [if_pos hemp]; exact ih st hrest
    · rw [if_neg hemp]
      unfold lineNoToken at hline
      rw [Bool.or_eq_true, Bool.or_eq_true] at hline
      rcases hline with h1 | h2 | h3
      · exact absurd (beq_iff_eq.mp h1) hemp
      · rw [if_pos (beq_iff_eq.mp h2)]
        exact ⟨true, rfl⟩
      · by_cases hd : lineData line = "[DONE]"
        · rw [if_pos hd]; exact ⟨true, rfl⟩
        · rw [if_neg hd]
          cases hres : extractChunk jparse (lineData line) with
          | error e => rw [hres] at h3; cases h3
          | ok chunk =>
            rw [hres] at h3
            have htr : truthy chunk = false := by simpa using h3
            have hstep : stepChunk clock t0 st chunk = .ok st := by
              unfold stepChunk
              rw [htr]
              simp
            simp only [hstep]
            exact ih st hrest

/-- Claim C2 (amended): a trial whose response carries zero output tokens has
output_chars = 0, output_bytes = 0 and success determined purely by the
status code on both paths; on the streaming path ttft is never set, while the
non-streaming path sets ttft equal to the total duration. -/
theorem zero_output_tokens_outcome (env : TrialEnv) (server : ServerSpec)
    (pid it : ℕ) (prompt : String) (cfg : RequestConfig) :
    (∀ status lines, cfg.stream = true →
      env.streamResult = .ok (status, lines, none) →
      (∀ line ∈ lines, lineNoToken env.jparse line = true) →
      (run_single_chat env server pid it prompt cfg).output_chars = 0 ∧
      (run_single_chat env server pid it prompt cfg).output_bytes = 0 ∧
      (run_single_chat env server pid it prompt cfg).ttft_ms = none ∧
      ((run_single_chat env server pid it prompt cfg).success = true
        ↔ statusOk (some status) = true)) ∧
    (∀ status text, cfg.stream = false →
      env.postResult = .ok (status, text) →
      nsSizes env.jparse env.jdumps text = (0, 0) →
      (run_single_chat env server pid it prompt cfg).output_chars = 0 ∧
      (run_single_chat env server pid it prompt cfg).output_bytes = 0 ∧
      (run_single_chat env server pid it prompt cfg).ttft_ms
        = (run_single_chat env server pid it prompt cfg).total_ms ∧
      (run_single_chat env server pid it prompt cfg).ttft_ms
        = some ((env.clock 1 - env.clock 0) * 1000) ∧
      ((run_single_chat env server pid it prompt cfg).success = true
        ↔ statusOk (some status) = true)) := by
  constructor
  · intro status lines hs hr hno
    obtain ⟨b, hloop⟩ := streamLoop_no_token env.jparse env.clock (env.clock 0)
      lines initSt hno
    have hrun : run_single_chat env server pid it prompt cfg
        = assemble env server pid it
            (.ok (status, none, (env.clock 1 - env.clock 0) * 1000, 0, 0)) := by
      cases b with
      | false =>
        simp only [run_single_chat, hs, if_true, tryStream, hr, hloop,
          Bool.false_eq_true, if_false]
        rfl
      | true =>
        simp only [run_single_chat, hs, if_true, tryStream, hr, hloop, if_true]
        rfl
    rw [hrun]
    exact ⟨rfl, rfl, rfl, Iff.rfl⟩
  · intro status text hs hr hsz
    have hrun : run_single_chat env server pid it prompt cfg
        = assemble env server pid it
            (.ok (status, some ((env.clock 1 - env.clock 0) * 1000),
              (env.clock 1 - env.clock 0) * 1000, 0, 0)) := by
      simp only [run_single_chat, hs, Bool.false_eq_true, if_false, tryPost, hr, hsz]
    rw [hrun]
    exact ⟨rfl, rfl, rfl, rfl, Iff.rfl⟩

/-- Claim C2 as stated is false on the non-streaming path: this concrete
non-streaming trial receives status 200 and an OpenAI-shaped body whose
message content is empty (zero output tokens), yet its ttft is set (the
non-streaming path always sets ttft to the elapsed total). -/
theorem nonstream_zero_tokens_ttft_defined :
    (run_single_chat envEmptyContent srvLocal 0 1 "p" cfgNoStream).output_chars = 0 ∧
    (run_single_chat envEmptyContent srvLocal 0 1 "p" cfgNoStream).success = true ∧
    (run_single_chat envEmptyContent srvLocal 0 1 "p" cfgNoStream).ttft_ms
      = some ((envEmptyContent.clock 1 - envEmptyContent.clock 0) * 1000) ∧
    (run_single_chat envEmptyContent srvLocal 0 1 "p" cfgNoStream).ttft_ms ≠ none :=
  ⟨rfl, rfl, rfl, fun h => by cases h⟩

/-- Witness for C2 (amended): a streaming feed consisting of one `[DONE]`
frame, and a non-streaming 200 response with empty message content. -/
theorem zero_output_tokens_outcome_witness :
    ((run_single_chat envDoneOnly srvLocal 0 1 "p" cfgStream).output_chars = 0 ∧
     (run_single_chat envDoneOnly srvLocal 0 1 "p" cfgStream).output_bytes = 0 ∧
     (run_single_chat envDoneOnly srvLocal 0 1 "p" cfgStream).ttft_ms = none ∧
     ((run_single_chat envDoneOnly srvLocal 0 1 "p" cfgStream).success = true
       ↔ statusOk (some 200) = true)) ∧
    ((run_single_chat envEmptyContent srvLocal 0 1 "p" cfgNoStream).output_chars = 0 ∧
     (run_single_chat envEmptyContent srvLocal 0 1 "p" cfgNoStream).output_bytes = 0 ∧
     (run_single_chat envEmptyContent srvLocal 0 1 "p" cfgNoStream).ttft_ms
       = (run_single_chat envEmptyContent srvLocal 0 1 "p" cfgNoStream).total_ms ∧
     (run_single_chat envEmptyContent srvLocal 0 1 "p" cfgNoStream).ttft_ms
       = some ((envEmptyContent.clock 1 - envEmptyContent.clock 0) * 1000) ∧
     ((run_single_chat envEmptyContent srvLocal 0 1 "p" cfgNoStream).success = true
       ↔ statusOk (some 200) = true)) :=
  ⟨(zero_output_tokens_outcome envDoneOnly srvLocal 0 1 "p" cfgStream).1
      200 ["data: [DONE]"] rfl rfl (by decide),
   (zero_output_tokens_outcome envEmptyContent srvLocal 0 1 "p" cfgNoStream).2
      200 "body" rfl rfl (by decide)⟩

/-! ## The aggregator: per-group reductions -/

theorem except_pure_eq_ok {ε α : Type} (a : α) :
    (pure a : Except ε α) = Except.ok a := rfl

theorem except_bind_ok {ε α β : Type} (a : α) (f : α → Except ε β) :
    (Except.ok a : Except ε α) >>= f = f a := rfl

theorem except_bind_err {ε α β : Type} (e : ε) (f : α → Except ε β) :
    (Except.error e : Except ε α) >>= f = Except.error e := rfl

theorem guardPercentile_ok (l : List ℚ) (p : ℚ) (h0 : 0 ≤ p) (h1 : p ≤ 1) :
    ∃ v, guardPercentile l p = .ok v := by
  unfold guardPercentile
  by_cases h : l.isEmpty = true
  · exact ⟨none, by rw [if_pos h]; rfl⟩
  · rw [if_neg h]
    exact percentile_ok_bounds l p h0 h1

theorem guardThroughput_mean_ne (latencies : List ℚ) (a : Option ℚ) (m : ℚ)
    (hlat : latencies.isEmpty = false) (hm : m ≠ 0) :
    guardThroughput latencies a (some m)
      = .ok (a.map (fun x => x / (m / 1000))) := by
  have hq : m / 1000 ≠ 0 := by
    intro h0
    rcases div_eq_zero_iff.mp h0 with h | h
    · exact hm h
    · norm_num at h
  unfold guardThroughput
  rw [hlat]
  simp only [Bool.false_eq_true, if_false]
  have hdiv1 : pyDiv (some m) (some 1000) = .ok (some (m / 1000)) := by
    simp [pyDiv]
  rw [hdiv1, except_bind_ok]
  cases a with
  | none => simp [pyDiv, hq]
  | some x => simp [pyDiv, hq]

theorem guardThroughput_mean_zero (latencies : List ℚ) (a : Option ℚ)
    (hlat : latencies.isEmpty = false) :
    guardThroughput latencies a (some 0) = .error "ZeroDivisionError" := by
  unfold guardThroughput
  rw [hlat]
  simp only [Bool.false_eq_true, if_false]
  have hdiv1 : pyDiv (some (0 : ℚ)) (some 1000) = .ok (some (0 / 1000 : ℚ)) := by
    simp [pyDiv]
  rw [hdiv1, except_bind_ok]
  have hz : (0 : ℚ) / 1000 = 0 := by norm_num
  simp [pyDiv, hz]

/-- The reduction on an all-empty timing population: every timing statistic
and both throughput figures are the undefined sentinel. -/
theorem summarizeCore_empty (n k : ℕ) (cs bs : List ℚ) :
    summarizeCore n k [] [] cs bs = .ok
      { runs := n, success_rate := (k : ℚ) / (max 1 n : ℚ),
        ttft_ms_avg := none, ttft_ms_p50 := none, ttft_ms_p95 := none,
        total_ms_avg := none, total_ms_p50 := none, total_ms_p95 := none,
        output_chars_avg := pymean? cs, output_bytes_avg := pymean? bs,
        chars_per_sec_avg := none, bytes_per_sec_avg := none } := rfl

/-- With no qualifying latencies the reduction returns, and its total-side
statistics and throughputs are the sentinel (the ttft side is whatever the
ttft population gives). -/
theorem summarizeCore_lat_nil (n k : ℕ) (ttf cs bs : List ℚ) :
    ∃ s, summarizeCore n k [] ttf cs bs = .ok s ∧
      s.total_ms_avg = none ∧ s.total_ms_p50 = none ∧ s.total_ms_p95 = none ∧
      s.chars_per_sec_avg = none ∧ s.bytes_per_sec_avg = none := by
  obtain ⟨v50t, h50t⟩ := guardPercentile_ok ttf (1/2) (by norm_num) (by norm_num)
  obtain ⟨v95t, h95t⟩ := guardPercentile_ok ttf (19/20) (by norm_num) (by norm_num)
  refine ⟨{ runs := n, success_rate := (k : ℚ) / (max 1 n : ℚ),
            ttft_ms_avg := pymean? ttf, ttft_ms_p50 := v50t, ttft_ms_p95 := v95t,
            total_ms_avg := none, total_ms_p50 := none, total_ms_p95 := none,
            output_chars_avg := pymean? cs, output_bytes_avg := pymean? bs,
            chars_per_sec_avg := none, bytes_per_sec_avg := none },
          ?_, rfl, rfl, rfl, rfl, rfl⟩
  simp only [summarizeCore, except_bind_ok, h50t, h95t,
    show guardPercentile [] (1/2) = .ok none from rfl,
    show guardPercentile [] (19/20) = .ok none from rfl,
    show ∀ a t, guardThroughput [] a t = .ok none from fun a t => rfl,
    show pymean? ([] : List ℚ) = none from rfl, except_pure_eq_ok]

/-- With a non-empty latency population of non-zero mean the reduction
returns, the mean is the sample mean, and each throughput is the matching
size mean divided by the latency mean in seconds. -/
theorem summarizeCore_ok_mean (n k : ℕ) (lat ttf cs bs : List ℚ)
    (hlat : lat ≠ []) (hm : lat.sum / (lat.length : ℚ) ≠ 0) :
    ∃ s, summarizeCore n k lat ttf cs bs = .ok s ∧
      s.total_ms_avg = some (lat.sum / (lat.length : ℚ)) ∧
      s.ttft_ms_avg = pymean? ttf ∧
      s.output_chars_avg = pymean? cs ∧
      s.output_bytes_avg = pymean? bs ∧
      s.chars_per_sec_avg
        = (pymean? cs).map (fun x => x / (lat.sum / (lat.length : ℚ) / 1000)) ∧
      s.bytes_per_sec_avg
        = (pymean? bs).map (fun x => x / (lat.sum / (lat.length : ℚ) / 1000)) := by
  have hlat' : lat.isEmpty = false := by simpa [List.isEmpty_iff] using hlat
  obtain ⟨v50t, h50t⟩ := guardPercentile_ok ttf (1/2) (by norm_num) (by norm_num)
  obtain ⟨v95t, h95t⟩ := guardPercentile_ok ttf (19/20) (by norm_num) (by norm_num)
  obtain ⟨v50l, h50l⟩ := guardPercentile_ok lat (1/2) (by norm_num) (by norm_num)
  obtain ⟨v95l, h95l⟩ := guardPercentile_ok lat (19/20) (by norm_num) (by norm_num)
  have hmean : pymean? lat = some (lat.sum / (lat.length : ℚ)) := by
    simp [pymean?, hlat']
  have hc := guardThroughput_mean_ne lat (pymean? cs) (lat.sum / (lat.length : ℚ)) hlat' hm
  have hb := guardThroughput_mean_ne lat (pymean? bs) (lat.sum / (lat.length : ℚ)) hlat' hm
  refine ⟨{ runs := n, success_rate := (k : ℚ) / (max 1 n : ℚ),
            ttft_ms_avg := pymean? ttf, ttft_ms_p50 := v50t, ttft_ms_p95 := v95t,
            total_ms_avg := some (lat.sum / (lat.length : ℚ)),
            total_ms_p50 := v50l, total_ms_p95 := v95l,
            output_chars_avg := pymean? cs, output_bytes_avg := pymean? bs,
            chars_per_sec_avg :=
              (pymean? cs).map (fun x => x / (lat.sum / (lat.length : ℚ) / 1000)),
            bytes_per_sec_avg :=
              (pymean? bs).map (fun x => x / (lat.sum / (lat.length : ℚ) / 1000)) },
          ?_, rfl, rfl, rfl, rfl, rfl, rfl⟩
  simp only [summarizeCore, except_bind_ok, h50t, h95t, h50l, h95l, hmean,
    hc, hb, except_pure_eq_ok]

/-- With a non-empty latency population of mean exactly zero, the reduction
raises ZeroDivisionError at the throughput computation. -/
theorem summarizeCore_zero_mean (n k : ℕ) (lat ttf cs bs : List ℚ)
    (hlat : lat ≠ []) (hm : lat.sum / (lat.length : ℚ) = 0) :
    summarizeCore n k lat ttf cs bs = .error "ZeroDivisionError" := by
  have hlat' : lat.isEmpty = false := by simpa [List.isEmpty_iff] using hlat
  obtain ⟨v50t, h50t⟩ := guardPercentile_ok ttf (1/2) (by norm_num) (by norm_num)
  obtain ⟨v95t, h95t⟩ := guardPercentile_ok ttf (19/20) (by norm_num) (by norm_num)
  obtain ⟨v50l, h50l⟩ := guardPercentile_ok lat (1/2) (by norm_num) (by norm_num)
  obtain ⟨v95l, h95l⟩ := guardPercentile_ok lat (19/20) (by norm_num) (by norm_num)
  have hmean : pymean? lat = some (lat.sum / (lat.length : ℚ)) := by
    simp [pymean?, hlat']
  have hc : guardThroughput lat (pymean? cs) (pymean? lat)
      = .error "ZeroDivisionError" := by
    rw [hmean, hm]
    exact guardThroughput_mean_zero lat (pymean? cs) hlat'
  simp only [summarizeCore, except_bind_ok, h50t, h95t, h50l, h95l, hmean]
  rw [hm] at hmean ⊢
  simp only [guardThroughput_mean_zero lat (pymean? cs) hlat', except_bind_err]

/-- Every entry of a successful aggregation is the per-group reduction of
that key's group. -/
theorem aggMap_mem (results : List SingleResult) :
    ∀ (ks : List (String × String)) (l : List ((String × String) × GroupSummary)),
      aggMap results ks = .ok l →
      ∀ k s, (k, s) ∈ l → summarize (groupOf results k) = .ok s := by
  intro ks
  induction ks with
  | nil =>
    intro l hl k s hmem
    unfold aggMap at hl
    obtain rfl : ([] : List ((String × String) × GroupSummary)) = l := by
      injection hl
    cases hmem
  | cons k0 ks ih =>
    intro l hl k s hmem
    unfold aggMap at hl
    cases hsum : summarize (groupOf results k0) with
    | error e =>
      rw [hsum, except_bind_err] at hl
      cases hl
    | ok s0 =>
      rw [hsum, except_bind_ok] at hl
      cases hrest : aggMap results ks with
      | error e =>
        rw [hrest, except_bind_err] at hl
        cases hl
      | ok rest =>
        rw [hrest, except_bind_ok, except_pure_eq_ok] at hl
        obtain rfl : (k0, s0) :: rest = l := by injection hl
        rcases List.mem_cons.mp hmem with heq | hmemr
        · obtain ⟨h1, h2⟩ := Prod.ext_iff.mp heq
          subst h1
          subst h2
          exact hsum
        · exact ih rest hrest k s hmemr

/-- Claim C6: for every group whose qualifying timing sub-populations (the
outcomes with success and the respective timing field defined) are empty,
the group's summary in the aggregate has ttft and total mean/p50/p95 all
equal to the undefined sentinel, never zero. -/
theorem group_empty_timing_undefined (results : List SingleResult)
    (k : String × String)
    (hlat : latList (groupOf results k) = [])
    (httft : ttftList (groupOf results k) = []) :
    ∃ s, summarize (groupOf results k) = .ok s ∧
      (∀ l s', aggregate results = .ok l → (k, s') ∈ l → s' = s) ∧
      s.ttft_ms_avg = none ∧ s.ttft_ms_p50 = none ∧ s.ttft_ms_p95 = none ∧
      s.total_ms_avg = none ∧ s.total_ms_p50 = none ∧ s.total_ms_p95 = none := by
  have hsum' : summarize (groupOf results k)
      = summarizeCore (groupOf results k).length
          ((groupOf results k).filter (fun i => i.success)).length
          [] [] (charsList (groupOf results k)) (bytesList (groupOf results k)) := by
    rw [summarize, hlat, httft]
  simp only [hsum', summarizeCore_empty]
  refine ⟨_, rfl, ?_, rfl, rfl, rfl, rfl, rfl, rfl⟩
  intro l s' hagg hmem
  have h2 := aggMap_mem results (firstKeys results) l hagg k s' hmem
  rw [hsum', summarizeCore_empty] at h2
  injection h2 with h2
  exact h2.symm

/-- Witness for C6: one failed trial; its group has no qualifying timing
outcomes and every timing statistic is the sentinel. -/
theorem group_empty_timing_undefined_witness :
    ∃ s, summarize (groupOf [rFailed] ("s", "m")) = .ok s ∧
      (∀ l s', aggregate [rFailed] = .ok l → (("s", "m"), s') ∈ l → s' = s) ∧
      s.ttft_ms_avg = none ∧ s.ttft_ms_p50 = none ∧ s.ttft_ms_p95 = none ∧
      s.total_ms_avg = none ∧ s.total_ms_p50 = none ∧ s.total_ms_p95 = none :=
  group_empty_timing_undefined [rFailed] ("s", "m") rfl rfl

/-- Claim C1 (amended): for every group of the aggregated summary, the
throughput figures equal the group's mean output size divided by the mean
total duration in seconds whenever that mean is defined and non-zero, and
they are the undefined sentinel whenever the mean is undefined; but when the
mean total duration is exactly zero, the reduction raises ZeroDivisionError
instead of producing the sentinel, so aggregation is not raise-free. -/
theorem aggregate_throughput (results : List SingleResult) (k : String × String) :
    (latList (groupOf results k) = [] →
      ∃ s, summarize (groupOf results k) = .ok s ∧
        (∀ l s', aggregate results = .ok l → (k, s') ∈ l → s' = s) ∧
        s.chars_per_sec_avg = none ∧ s.bytes_per_sec_avg = none) ∧
    (latList (groupOf results k) ≠ [] →
      pymean? (latList (groupOf results k)) ≠ some 0 →
      ∃ s, summarize (groupOf results k) = .ok s ∧
        (∀ l s', aggregate results = .ok l → (k, s') ∈ l → s' = s) ∧
        s.total_ms_avg = pymean? (latList (groupOf results k)) ∧
        s.output_chars_avg = pymean? (charsList (groupOf results k)) ∧
        s.output_bytes_avg = pymean? (bytesList (groupOf results k)) ∧
        s.chars_per_sec_avg = (pymean? (charsList (groupOf results k))).map
          (fun x => x / ((latList (groupOf results k)).sum
            / ((latList (groupOf results k)).length : ℚ) / 1000)) ∧
        s.bytes_per_sec_avg = (pymean? (bytesList (groupOf results k))).map
          (fun x => x / ((latList (groupOf results k)).sum
            / ((latList (groupOf results k)).length : ℚ) / 1000))) ∧
    (latList (groupOf results k) ≠ [] →
      pymean? (latList (groupOf results k)) = some 0 →
      summarize (groupOf results k) = .error "ZeroDivisionError" ∧
      ∀ l s', aggregate results = .ok l → (k, s') ∉ l) := by
  refine ⟨?_, ?_, ?_⟩
  · intro hlat
    have hsum' : summarize (groupOf results k)
        = summarizeCore (groupOf results k).length
            ((groupOf results k).filter (fun i => i.success)).length
            [] (ttftList (groupOf results k))
            (charsList (groupOf results k)) (bytesList (groupOf results k)) := by
      rw [summarize, hlat]
    obtain ⟨s, hs, h1, h2, h3, h4, h5⟩ := summarizeCore_lat_nil
      (groupOf results k).length
      ((groupOf results k).filter (fun i => i.success)).length
      (ttftList (groupOf results k))
      (charsList (groupOf results k)) (bytesList (groupOf results k))
    refine ⟨s, by rw [hsum', hs], ?_, h4, h5⟩
    intro l s' hagg hmem
    have hk := aggMap_mem results (firstKeys results) l hagg k s' hmem
    rw [hsum', hs] at hk
    injection hk with hk
    exact hk.symm
  · intro hlat hm
    have hlat' : (latList (groupOf results k)).isEmpty = false := by
      simpa [List.isEmpty_iff] using hlat
    have hmean : pymean? (latList (groupOf results k))
        = some ((latList (groupOf results k)).sum
            / ((latList (groupOf results k)).length : ℚ)) := by
      simp [pymean?, hlat']
    have hm0 : (latList (groupOf results k)).sum
        / ((latList (groupOf results k)).length : ℚ) ≠ 0 := by
      intro h0
      apply hm
      rw [hmean, h0]
    obtain ⟨s, hs, h1, h2, h3, h4, h5, h6⟩ := summarizeCore_ok_mean
      (groupOf results k).length
      ((groupOf results k).filter (fun i => i.success)).length
      (latList (groupOf results k)) (ttftList (groupOf results k))
      (charsList (groupOf results k)) (bytesList (groupOf results k))
      hlat hm0
    have hsum' : summarize (groupOf results k) = .ok s := by
      rw [summarize]; exact hs
    refine ⟨s, hsum', ?_, by rw [h1, hmean], h3, h4, h5, h6⟩
    intro l s' hagg hmem
    have hk := aggMap_mem results (firstKeys results) l hagg k s' hmem
    rw [hsum'] at hk
    injection hk with hk
    exact hk.symm
  · intro hlat hm
    have hlat' : (latList (groupOf results k)).isEmpty = false := by
      simpa [List.isEmpty_iff] using hlat
    have hmean : pymean? (latList (groupOf results k))
        = some ((latList (groupOf results k)).sum
            / ((latList (groupOf results k)).length : ℚ)) := by
      simp [pymean?, hlat']
    have hm0 : (latList (groupOf results k)).sum
        / ((latList (groupOf results k)).length : ℚ) = 0 := by
      rw [hmean] at hm
      injection hm
    have herr : summarize (groupOf results k) = .error "ZeroDivisionError" := by
      rw [summarize]
      exact summarizeCore_zero_mean _ _ _ _ _ _ hlat hm0
    refine ⟨herr, ?_⟩
    intro l s' hagg hmem
    have hk := aggMap_mem results (firstKeys results) l hagg k s' hmem
    rw [herr] at hk
    cases hk

/-- Claim C1 as stated is false: on one successful outcome whose total
duration is zero milliseconds, the aggregator divides by a zero mean and
raises ZeroDivisionError instead of yielding the undefined sentinel. -/
theorem aggregate_zero_mean_raises :
    aggregate [rZeroMs] = .error "ZeroDivisionError" := by
  have hg : groupOf [rZeroMs] ("s", "m") = [rZeroMs] := rfl
  have hlat : latList [rZeroMs] = [0] := rfl
  have hsum : summarize [rZeroMs] = .error "ZeroDivisionError" := by
    rw [summarize, hlat]
    apply summarizeCore_zero_mean
    · simp
    · norm_num
  show aggMap [rZeroMs] (firstKeys [rZeroMs]) = .error "ZeroDivisionError"
  have hkeys : firstKeys [rZeroMs] = [("s", "m")] := rfl
  rw [hkeys]
  unfold aggMap
  rw [hg, hsum, except_bind_err]

/-- Witness for C1 (amended): one successful trial with total duration 2 ms
and 4 output chars/bytes; the throughput equals the mean size over the mean
duration in seconds. -/
theorem aggregate_throughput_witness :
    ∃ s, summarize (groupOf [rTwoMs] ("s", "m")) = .ok s ∧
      (∀ l s', aggregate [rTwoMs] = .ok l → (("s", "m"), s') ∈ l → s' = s) ∧
      s.total_ms_avg = pymean? (latList (groupOf [rTwoMs] ("s", "m"))) ∧
      s.output_chars_avg = pymean? (charsList (groupOf [rTwoMs] ("s", "m"))) ∧
      s.output_bytes_avg = pymean? (bytesList (groupOf [rTwoMs] ("s", "m"))) ∧
      s.chars_per_sec_avg = (pymean? (charsList (groupOf [rTwoMs] ("s", "m")))).map
        (fun x => x / ((latList (groupOf [rTwoMs] ("s", "m"))).sum
          / ((latList (groupOf [rTwoMs] ("s", "m"))).length : ℚ) / 1000)) ∧
      s.bytes_per_sec_avg = (pymean? (bytesList (groupOf [rTwoMs] ("s", "m")))).map
        (fun x => x / ((latList (groupOf [rTwoMs] ("s", "m"))).sum
          / ((latList (groupOf [rTwoMs] ("s", "m"))).length : ℚ) / 1000)) :=
  (aggregate_throughput [rTwoMs] ("s", "m")).2.1 (by decide)
    (by simp [show latList (groupOf [rTwoMs] ("s", "m")) = [2] from rfl, pymean?])

/-! ## The scheduler: exact outcome count -/

theorem length_flatMap_const {α β : Type} (l : List α) (f : α → List β) (c : ℕ)
    (h : ∀ a ∈ l, (f a).length = c) : (l.flatMap f).length = l.length * c := by
  induction l with
  | nil => simp
  | cons a t ih =>
    rw [List.flatMap_cons, List.length_append, h a (List.mem_cons_self a t),
      ih (fun x hx => h x (List.mem_cons.mpr (Or.inr hx)))]
    simp [List.length_cons]
    ring

theorem trialSpecs_length (servers : List ServerSpec) (prompts : List String)
    (iterations : ℕ) :
    (trialSpecs servers prompts iterations).length
      = servers.length * prompts.length * iterations := by
  unfold trialSpecs
  have hinner : ∀ srv ∈ servers,
      (prompts.enum.flatMap (fun pp =>
        (List.range iterations).map (fun j => (srv, pp.1, j + 1, pp.2)))).length
      = prompts.length * iterations := by
    intro srv _
    rw [length_flatMap_const _ _ iterations (fun pp _ => by
      rw [List.length_map, List.length_range])]
    rw [List.enum_length]
  rw [length_flatMap_const _ _ (prompts.length * iterations) hinner]
  ring

theorem trialTasks_length (envs : ℕ → TrialEnv) (servers : List ServerSpec)
    (prompts : List String) (iterations : ℕ) (cfg : RequestConfig) :
    (trialTasks envs servers prompts iterations cfg).length
      = servers.length * prompts.length * iterations := by
  unfold trialTasks
  rw [List.length_map, List.enum_length, trialSpecs_length]

theorem filterMap_getElem?_range {α : Type} :
    ∀ l : List α, (List.range l.length).filterMap (fun i => l[i]?) = l := by
  intro l
  induction l with
  | nil => rfl
  | cons a t ih =>
    rw [List.length_cons, List.range_succ_eq_map, List.filterMap_cons]
    simp only [List.getElem?_cons_zero]
    rw [List.filterMap_map]
    have hcomp : ((fun i => (a :: t)[i]?) ∘ Nat.succ) = fun i => t[i]? := by
      funext i
      simp
    rw [hcomp, ih]

theorem filterMap_getElem?_length {α : Type} (l : List α) :
    ∀ sched : List ℕ, (∀ i ∈ sched, i < l.length) →
      (sched.filterMap (fun i => l[i]?)).length = sched.length := by
  intro sched
  induction sched with
  | nil => intro _; rfl
  | cons i rest ih =>
    intro h
    have hi : i < l.length := h i (List.mem_cons_self i rest)
    rw [List.filterMap_cons, List.getElem?_eq_getElem hi]
    simp only [List.length_cons]
    rw [ih (fun j hj => h j (List.mem_cons.mpr (Or.inr hj)))]

/-- Claim C3: for every target list, prompt list, iteration count and
concurrency limit at least 1, and every completion order (a permutation of
the created task indices), the scheduler returns exactly
|servers| * |prompts| * iterations outcomes: a permutation of the list
holding exactly one outcome per submitted (target, prompt, repetition)
triple, none dropped, merged or duplicated. -/
theorem run_benchmark_exact_count (envs : ℕ → TrialEnv) (servers : List ServerSpec)
    (prompts : List String) (iterations concurrency : ℕ) (cfg : RequestConfig)
    (sched : List ℕ) (hconc : 1 ≤ concurrency)
    (hsched : sched.Perm
      (List.range (trialTasks envs servers prompts iterations cfg).length)) :
    (run_benchmark envs servers prompts iterations concurrency cfg sched).length
      = servers.length * prompts.length * iterations ∧
    (run_benchmark envs servers prompts iterations concurrency cfg sched).Perm
      (trialTasks envs servers prompts iterations cfg) := by
  have hmem : ∀ i ∈ sched,
      i < (trialTasks envs servers prompts iterations cfg).length := by
    intro i hi
    have := hsched.mem_iff.mp hi
    exact List.mem_range.mp this
  constructor
  · rw [run_benchmark, filterMap_getElem?_length _ sched hmem, hsched.length_eq,
      List.length_range, trialTasks_length]
  · rw [run_benchmark]
    have hperm := hsched.filterMap
      (fun i => (trialTasks envs servers prompts iterations cfg)[i]?)
    rw [filterMap_getElem?_range] at hperm
    exact hperm

/-- Witness for C3: one server, one prompt, two iterations, concurrency 1,
with the second trial completing before the first. -/
theorem run_benchmark_exact_count_witness :
    (run_benchmark (fun _ => envRefused) [srvLocal] ["p"] 2 1 cfgStream [1, 0]).length
      = 1 * 1 * 2 ∧
    (run_benchmark (fun _ => envRefused) [srvLocal] ["p"] 2 1 cfgStream [1, 0]).Perm
      (trialTasks (fun _ => envRefused) [srvLocal] ["p"] 2 cfgStream) :=
  run_benchmark_exact_count (fun _ => envRefused) [srvLocal] ["p"] 2 1 cfgStream
    [1, 0] (by decide) (by decide)
